import Mathlib

/-!
Verification of the My-Stock-App repository (a Streamlit quant-investing demo)
against its natural-language specification.

The Python modules are shallowly embedded in Lean:
* pandas Series / numpy arrays of floats become `List ℚ` (floating point is
  idealised as exact rational arithmetic); a Series entry that pandas would
  hold as NaN (e.g. the warm-up rows of a rolling window) becomes `none` in a
  `List (Option ℚ)`, and comparisons against NaN are `false`, as in pandas.
* a DataFrame is represented by the lists of the columns the code reads.
* fallible code returns `Option`/`Except`.
* `multiprocessing.Pool.imap` applies the worker to every element of the
  input iterable and yields the results in input order; `poolImap` models
  exactly that documented contract.
-/

/- ### Generic list / numeric utilities used by the embedded modules -/

/-- Arithmetic mean of a list, as pandas `Series.mean` (sum divided by
length; the empty case is never reached on the guarded paths we verify). -/
def mean (xs : List ℚ) : ℚ := xs.sum / xs.length

/-- Running product helper: `cumprodGo acc xs` lists the partial products
`acc * x₁, acc * x₁ * x₂, …`. -/
def cumprodGo (acc : ℚ) : List ℚ → List ℚ
  | [] => []
  | x :: xs => (acc * x) :: cumprodGo (acc * x) xs

/-- pandas `Series.cumprod`. -/
def cumprod (xs : List ℚ) : List ℚ := cumprodGo 1 xs

/-- Running maximum helper. -/
def cummaxGo (m : ℚ) : List ℚ → List ℚ
  | [] => []
  | x :: xs => (max m x) :: cummaxGo (max m x) xs

/-- pandas `Series.cummax`. -/
def cummax : List ℚ → List ℚ
  | [] => []
  | x :: xs => x :: cummaxGo x xs

/-- `Series.min` / `np.min` of a list (0 on the empty list, which the
verified paths never reach). -/
def listMin : List ℚ → ℚ
  | [] => 0
  | x :: xs => xs.foldl min x

/-- `Series.max` / `np.max` of a list (0 on the empty list, which the
verified paths never reach). -/
def listMax : List ℚ → ℚ
  | [] => 0
  | x :: xs => xs.foldl max x

/-- Round-half-to-even on rationals, the tie-breaking rule of Python's
built-in `round`. -/
def roundHalfEven (x : ℚ) : ℤ :=
  if Int.fract x < 1 / 2 then ⌊x⌋
  else if 1 / 2 < Int.fract x then ⌊x⌋ + 1
  else if 2 ∣ ⌊x⌋ then ⌊x⌋ else ⌊x⌋ + 1

/-- Python's `round(x, ndigits)` idealised over ℚ: round to the nearest
multiple of `10 ^ (-ndigits)`, ties to even. -/
def pyRound (x : ℚ) (ndigits : ℕ) : ℚ :=
  (roundHalfEven (x * 10 ^ ndigits) : ℚ) / 10 ^ ndigits

/- ### module_04.py -/

/-- The single-column DataFrame built by `generate_dummy_portfolio`
(`pd.DataFrame({'Portfolio': portfolio})` with a date index ending today). -/
structure DummyFrame where
  index : List ℤ
  column : String
  values : List ℚ
deriving Repr

/-- `generate_dummy_portfolio(days, seed)` from module_04.py.

`np.random.seed(seed)` followed by `np.random.normal(0.0004, 0.01, days)` is
a deterministic function of `(seed, days)` (numpy's documented PRNG
contract), modelled by the parameter `normal : seed → size → draws`.
`pd.date_range(end=pd.Timestamp.today(), periods=days)` depends on the call
date, modelled by the parameter `today` (days since an epoch). -/
def generate_dummy_portfolio (normal : ℕ → ℕ → List ℚ) (today : ℤ)
    (days : ℕ) (seed : ℕ) : DummyFrame :=
  { index := (List.range days).map fun i => today - ((days : ℤ) - 1 - (i : ℤ))
    column := "Portfolio"
    values := (cumprod ((normal seed days).map fun x => 1 + x)).map
      fun p => 100 * p }

/- ### module_11.py -/

/-- A Python value as inspected by `MassiveBacktester.run`'s filter:
numbers and strings are the payloads the claims look at. -/
inductive PyVal where
  | num (q : ℚ)
  | str (s : String)
deriving Repr, DecidableEq

/-- A Python object as inspected by `MassiveBacktester.run`'s filter:
either a dict with string keys, or any non-dict value. -/
inductive PyObj where
  | dict (entries : List (String × PyVal))
  | nondict (v : PyVal)
deriving Repr, DecidableEq

/-- `isinstance(r, dict)`. -/
def PyObj.isDict : PyObj → Bool
  | .dict _ => true
  | .nondict _ => false

/-- Python's `key in r` on a dict (`False` on non-dicts; the code only asks
it after `isinstance(r, dict)`). -/
def PyObj.hasKey : PyObj → String → Bool
  | .dict entries, k => (entries.map Prod.fst).contains k
  | .nondict _, _ => false

/-- `multiprocessing.Pool.imap(f, xs)`: applies `f` to every element of
`xs` and yields the results in input order (the documented contract of
`imap`; with a pure worker the pool adds nothing beyond `map`). -/
def poolImap {α β : Type} (f : α → β) (xs : List α) : List β := xs.map f

/-- The `MassiveBacktester` object of module_11.py.  The strategy may raise
(`Except.error` carries `str(e)`); `max_runs` defaults to `100_000` as in
`__init__`. -/
structure MassiveBacktester (σ : Type) where
  strategy_fn : σ → Except String PyObj
  scenario_generator : ℕ → List σ
  max_runs : ℕ := 100000

/-- `MassiveBacktester._run_single_simulation`: run the strategy on one
scenario, catching any exception `e` and returning `{"error": str(e)}`
instead of propagating it.  (The `np.random.seed()` reseed only perturbs the
ambient numpy PRNG and has no effect on a strategy that is a pure function
of its scenario, which is how strategies appear in this embedding.) -/
def MassiveBacktester.run_single_simulation {σ : Type}
    (t : MassiveBacktester σ) (s : σ) : PyObj :=
  match t.strategy_fn s with
  | .ok r => r
  | .error e => .dict [("error", .str e)]

/-- The filter applied to `self.results` at the end of `run`:
`isinstance(r, dict) and "return" in r and not "error" in r`. -/
def validResult (r : PyObj) : Bool :=
  r.isDict && r.hasKey "return" && !(r.hasKey "error")

/-- `MassiveBacktester.run(parallel)`: generate `max_runs` scenarios with
one call to `scenario_generator`, evaluate `_run_single_simulation` on each
(through `Pool.imap` when `parallel`, a list comprehension otherwise), and
keep only the valid result dicts (the rows of the returned DataFrame). -/
def MassiveBacktester.run {σ : Type} (t : MassiveBacktester σ)
    (parallel : Bool) : List PyObj :=
  let scenarios := t.scenario_generator t.max_runs
  let results :=
    if parallel then poolImap t.run_single_simulation scenarios
    else scenarios.map t.run_single_simulation
  results.filter validResult

/- ### module_14.py -/

/-- The `TimingPredictor` object: `self.df = price_df.dropna()`, of which
the methods read the `Close` and `Volume` columns. -/
structure TimingPredictor where
  close : List ℚ
  volume : List ℚ

/-- pandas `series.rolling(window=w).mean()` on a NaN-free series: `none`
until the window is full, then the mean of the last `w` entries. -/
def rollingMean (w : ℕ) (xs : List ℚ) : List (Option ℚ) :=
  (List.range xs.length).map fun i =>
    if w ≤ i + 1 then some (mean ((xs.drop (i + 1 - w)).take w)) else none

/-- pandas `series.rolling(window=w).mean()` on a series that may contain
NaN (`none`): the result is `none` unless the window is full and NaN-free. -/
def rollingMeanO (w : ℕ) (xs : List (Option ℚ)) : List (Option ℚ) :=
  (List.range xs.length).map fun i =>
    if w ≤ i + 1 then
      let win := (xs.drop (i + 1 - w)).take w
      if win.all Option.isSome then some (mean win.reduceOption) else none
    else none

/-- pandas `series.diff()`: NaN at index 0, `xs[i] - xs[i-1]` after. -/
def series_diff (xs : List ℚ) : List (Option ℚ) :=
  (List.range xs.length).map fun i =>
    if i = 0 then none else some (xs.getD i 0 - xs.getD (i - 1) 0)

/-- `TimingPredictor._compute_rsi`: rolling means of the clipped gains and
losses of `series.diff()`, then `100 - 100 / (1 + rs)` with
`rs = gain / (loss + 1e-10)`; NaN (`none`) propagates as in pandas. -/
def compute_rsi (series : List ℚ) (period : ℕ := 14) : List (Option ℚ) :=
  let delta := series_diff series
  let gain := rollingMeanO period (delta.map (Option.map fun d => max d 0))
  let loss := rollingMeanO period (delta.map (Option.map fun d => max (-d) 0))
  List.zipWith
    (fun g l =>
      match g, l with
      | some g, some l =>
        let rs := g / (l + 1 / 10 ^ 10)
        some (100 - 100 / (1 + rs))
      | _, _ => none)
    gain loss

/-- `series.ewm(span, adjust=False).mean()` recursion:
`y₀ = x₀`, `yᵢ = (1 - α) yᵢ₋₁ + α xᵢ`. -/
def ewmGo (a prev : ℚ) : List ℚ → List ℚ
  | [] => []
  | x :: xs => ((1 - a) * prev + a * x) :: ewmGo a ((1 - a) * prev + a * x) xs

/-- `series.ewm(span=span, adjust=False).mean()` with `α = 2 / (span + 1)`. -/
def ewm_mean (span : ℕ) (xs : List ℚ) : List ℚ :=
  match xs with
  | [] => []
  | x :: rest => x :: ewmGo (2 / ((span : ℚ) + 1)) x rest

/-- `TimingPredictor._compute_macd`: the MACD histogram
`macd - macd.ewm(signal).mean()` with `macd = ema_short - ema_long`. -/
def compute_macd (series : List ℚ) (short : ℕ := 12) (long : ℕ := 26)
    (signal : ℕ := 9) : List ℚ :=
  let macd := List.zipWith (fun a b => a - b)
    (ewm_mean short series) (ewm_mean long series)
  List.zipWith (fun a b => a - b) macd (ewm_mean signal macd)

/-- Loop body of `TimingPredictor._compute_obv` over the pairs
`(close[i], volume[i])` for `i ≥ 1`, carrying the previous close and the
running OBV value. -/
def obvGo (prevClose acc : ℚ) : List (ℚ × ℚ) → List ℚ
  | [] => []
  | (c, v) :: rest =>
    let a := if prevClose < c then acc + v else if c < prevClose then acc - v else acc
    a :: obvGo c a rest

/-- `TimingPredictor._compute_obv`: `obv = [0]`, then add, subtract or keep
`volume[i]` according to the sign of `close[i] - close[i-1]`. -/
def compute_obv (close volume : List ℚ) : List ℚ :=
  match close with
  | [] => [0]
  | c :: cs => 0 :: obvGo c 0 (cs.zip (volume.drop 1))

/-- The `self.signals` columns written by `compute_indicators`. -/
structure Signals where
  ma20 : List (Option ℚ)
  rsi : List (Option ℚ)
  macd : List ℚ
  obv : List ℚ

/-- `TimingPredictor.compute_indicators`: MA20, RSI, MACD, OBV of the
Close/Volume columns.  MACD and OBV are NaN-free; MA20 and RSI have warm-up
NaNs (`none`). -/
def compute_indicators (t : TimingPredictor) : Signals :=
  { ma20 := rollingMean 20 t.close
    rsi := compute_rsi t.close 14
    macd := compute_macd t.close 12 26 9
    obv := compute_obv t.close t.volume }

/-- pandas elementwise `series < q` where `series` may hold NaN: a NaN entry
compares `False`. -/
def cmpSeriesLt (a : Option ℚ) (b : ℚ) : Bool :=
  match a with
  | some x => decide (x < b)
  | none => false

/-- pandas elementwise `series > q` where `series` may hold NaN: a NaN entry
compares `False`. -/
def cmpSeriesGt (a : Option ℚ) (b : ℚ) : Bool :=
  match a with
  | some x => decide (b < x)
  | none => false

/-- `TimingPredictor.generate_entry_exit_signals` (run after
`compute_indicators`, as in the class's usage):
`Entry = (rsi < 30) & (macd > 0) & (close > ma)` and
`Exit = (rsi > 70) | (macd < 0) | (close < ma)`, as row-aligned boolean
columns. -/
def generate_entry_exit_signals (t : TimingPredictor) : List Bool × List Bool :=
  let s := compute_indicators t
  (((List.range t.close.length).map fun i =>
      cmpSeriesLt (s.rsi.getD i none) 30 &&
      decide (0 < s.macd.getD i 0) &&
      cmpSeriesLt (s.ma20.getD i none) (t.close.getD i 0)),
   ((List.range t.close.length).map fun i =>
      cmpSeriesGt (s.rsi.getD i none) 70 ||
      decide (s.macd.getD i 0 < 0) ||
      cmpSeriesGt (s.ma20.getD i none) (t.close.getD i 0)))

/-- Classic dynamic-time-warping distance with cost `|a - b|`
(`dist=euclidean` on scalars).  `match_similar_patterns` calls the external
`fastdtw` library; the theorems take the distance function as a parameter
and `dtwDist` is the concrete instance used by the witnesses. -/
def dtwDist : List ℚ → List ℚ → ℚ
  | [], _ => 0
  | _ :: _, [] => 0
  | [a], [b] => |a - b|
  | [a], b :: b2 :: bs => |a - b| + dtwDist [a] (b2 :: bs)
  | a :: a2 :: as, [b] => |a - b| + dtwDist (a2 :: as) [b]
  | a :: a2 :: as, b :: b2 :: bs =>
    |a - b| + min (dtwDist (a2 :: as) (b :: b2 :: bs))
      (min (dtwDist (a :: a2 :: as) (b2 :: bs)) (dtwDist (a2 :: as) (b2 :: bs)))
termination_by x y => x.length + y.length

instance : IsTotal (ℕ × ℚ) (fun a b => a.2 ≤ b.2) :=
  ⟨fun a b => le_total a.2 b.2⟩

instance : IsTrans (ℕ × ℚ) (fun a b => a.2 ≤ b.2) :=
  ⟨fun _ _ _ h1 h2 => le_trans h1 h2⟩

/-- The denominator used by `MinMaxScaler`: the data range, with
`_handle_zeros_in_scale` replacing a zero range by 1. -/
def minMaxDenom (lo hi : ℚ) : ℚ := if hi - lo = 0 then 1 else hi - lo

/-- `scaler.fit_transform(self.df['Close'].tail(window_size))`: the last
`window_size` closes, min-max scaled over themselves. -/
def scaled_current_window (t : TimingPredictor) (ws : ℕ) : List ℚ :=
  let cur := t.close.drop (t.close.length - ws)
  cur.map fun x => (x - listMin cur) / minMaxDenom (listMin cur) (listMax cur)

/-- `scaler.transform(reference_close)`: the reference closes scaled with
the parameters fitted on the current window. -/
def scaled_reference (t : TimingPredictor) (reference_close : List ℚ)
    (ws : ℕ) : List ℚ :=
  let cur := t.close.drop (t.close.length - ws)
  reference_close.map fun x =>
    (x - listMin cur) / minMaxDenom (listMin cur) (listMax cur)

/-- The `similarity_scores` list of `match_similar_patterns`: for every
`start in range(len(reference_close) - window_size)` the pair
`(start, fastdtw-distance of the scaled windows)`. -/
def similarity_scores_list (dtw : List ℚ → List ℚ → ℚ) (t : TimingPredictor)
    (reference_close : List ℚ) (ws : ℕ) : List (ℕ × ℚ) :=
  (List.range (reference_close.length - ws)).map fun start =>
    (start, dtw (scaled_current_window t ws)
      (((scaled_reference t reference_close ws).drop start).take ws))

/-- `TimingPredictor.match_similar_patterns(reference_df, window_size)`:
guard on the frame lengths, score every candidate start, stable-sort by
distance, and return the best raw reference window together with
`round((1 - top / (max + 1e-5)) * 100, 2)`; `(None, 0.0)` when a guard
fails or no candidate start exists. -/
def match_similar_patterns (dtw : List ℚ → List ℚ → ℚ) (t : TimingPredictor)
    (reference_close : List ℚ) (window_size : ℕ) : Option (List ℚ) × ℚ :=
  if t.close.length < window_size ∨ reference_close.length < window_size then
    (none, 0)
  else
    let scores := similarity_scores_list dtw t reference_close window_size
    match scores.insertionSort (fun a b => a.2 ≤ b.2) with
    | [] => (none, 0)
    | (top_start, top_distance) :: _ =>
      (some ((reference_close.drop top_start).take window_size),
        pyRound ((1 - top_distance / (listMax (scores.map Prod.snd) + 1 / 100000)) * 100) 2)

/-- pandas `self.df['Close'].pct_change().dropna()` on a NaN-free Close
column: `(xs[i] - xs[i-1]) / xs[i-1]` for `i ≥ 1` (the leading NaN is
dropped). -/
def pct_change (xs : List ℚ) : List ℚ :=
  List.zipWith (fun prev cur => (cur - prev) / prev) xs xs.tail

/-- numpy `np.percentile(a, q)` with the default linear interpolation:
`h = (n - 1) * q / 100`, interpolate between the sorted entries at
`⌊h⌋` and `⌊h⌋ + 1`. -/
def npPercentile (a : List ℚ) (q : ℚ) : ℚ :=
  let s := a.insertionSort (fun x y => x ≤ y)
  let h : ℚ := ((a.length : ℚ) - 1) * q / 100
  let lo := s.getD (⌊h⌋).toNat 0
  let hi := s.getD ((⌊h⌋).toNat + 1) lo
  lo + (h - (⌊h⌋ : ℚ)) * (hi - lo)

/-- `TimingPredictor.risk_forecast`: `(None, None, None)` when fewer than 20
returns exist, otherwise `(VaR₉₅, CVaR₉₅, MDD)`, each `round(x * 100, 2)`. -/
def risk_forecast (t : TimingPredictor) : Option (ℚ × ℚ × ℚ) :=
  let returns := pct_change t.close
  if returns.length < 20 then none
  else
    let var_95 := npPercentile returns 5
    let cvar_95 := mean (returns.filter fun r => r ≤ var_95)
    let cumulative := cumprod (returns.map fun r => 1 + r)
    let peak := cummax cumulative
    let drawdown := List.zipWith (fun c p => (c - p) / p) cumulative peak
    let mdd := listMin drawdown
    some (pyRound (var_95 * 100) 2, pyRound (cvar_95 * 100) 2, pyRound (mdd * 100) 2)

/-- `TimingPredictor.market_phase_weighting(macro_signal)`: fixed indicator
weights for Bull, Bear and every other input. -/
def market_phase_weighting (macro_signal : String) : List (String × ℚ) :=
  if macro_signal = "Bull" then
    [("RSI", 0.4), ("MACD", 0.3), ("MA", 0.2), ("OBV", 0.1)]
  else if macro_signal = "Bear" then
    [("RSI", 0.1), ("MACD", 0.2), ("MA", 0.4), ("OBV", 0.3)]
  else
    [("RSI", 0.25), ("MACD", 0.25), ("MA", 0.25), ("OBV", 0.25)]

/- ### app.py -/

/-- The `modules` dict of app.py: each sidebar label is bound to the `run`
entry point of one module, recorded here by its number
(`N` stands for `modules.module_N.run`). -/
def appModules : List (String × ℕ) :=
  [("1. 기본 정보 분석", 1),
   ("2. 재무 실적 분석", 2),
   ("3. 통합 전략 판단", 3),
   ("4. 자동 포트 구성", 4),
   ("5. 시장 심리 분석", 5),
   ("6. 전략 전환 탐지", 6),
   ("7. 시각화 및 보고서", 7),
   ("8. 자동 백테스트", 8),
   ("9. 리스크 분석", 9),
   ("10. 결과 저장 & 리포트", 10),
   ("11. 초고속 대규모 백테스트", 11),
   ("12. 전략 트리거 자동화", 12),
   ("13. 기술 분석 모듈", 13),
   ("14. 진입/청산 타이밍 예측", 14),
   ("15. 매크로 반영 구조", 15),
   ("16. ETF 전략 자동화", 16),
   ("17. 옵션/파생 전략", 17),
   ("18. AI 기반 자산배분", 18),
   ("19. 매크로 기반 전략 적응", 19),
   ("20. 환율·금리 동태 분석", 20),
   ("21. 유동성 사이클 감지", 21),
   ("22. 위기 예측 시나리오", 22),
   ("23. 산업 로테이션 시스템", 23),
   ("24. 수급 기반 매매 전략", 24),
   ("25. 시장 심리 사이클 추적", 25),
   ("26. 기회/비매매 구간 판단", 26),
   ("27. 투자 루틴 & 성장 피드백", 27),
   ("28. 자기주도 전략 생성 시스템", 28),
   ("29. 전략 시나리오 & 시뮬레이션", 29),
   ("30. 자기지능 강화 & 메타학습", 30)]

/-- The number at the front of a sidebar label: the decimal digits before
the first non-digit character. -/
def labelNumber (label : String) : Option ℕ :=
  let ds := label.toList.takeWhile Char.isDigit
  if ds.isEmpty then none
  else some (ds.foldl (fun acc c => 10 * acc + (c.toNat - 48)) 0)

/-- `modules[selected_module]()` on a page render: the list of module `run`
functions the dispatcher invokes for the selected label (by number).  The
dict lookup yields exactly one bound entry point for a label in the dict,
and none otherwise. -/
def renderInvocations (selected : String) : List ℕ :=
  match appModules.lookup selected with
  | some n => [n]
  | none => []

/- ### The test suite's imports (tests/…) -/

/-- The importable top-level module names of the source tree (files and
packages next to app.py): app.py, module_01.py, the modules/ package,
modules_device_detector.py and the tests/ package. -/
def srcTopLevelModules : List String :=
  ["app", "module_01", "modules", "modules_device_detector", "tests"]

/-- The top-level names bound in modules/module_11.py (its imports and its
own definitions), i.e. the attributes `from module_11 import …` could
resolve even if a `module_11` module were importable. -/
def module11TopLevelNames : List String :=
  ["np", "pd", "plt", "sns", "mp", "tqdm", "warnings",
   "generate_dummy_portfolio", "calc_performance_metrics",
   "MassiveBacktester", "sample_scenario_generator", "example_strategy_fn",
   "st", "run"]

/-- The modules of the tests/scenario/ package (the only `scenario`-named
package anywhere in the tree). -/
def testsScenarioModules : List String :=
  ["test_bear_market_reaction", "test_macro_shock_event",
   "test_user_custom_input"]

/-- For each of the five test files of the claim, the top-level module its
first `import`/`from` statement requires together with the name it needs:
`test_backtest_speed.py` needs `backtest_engine` from a top-level
`module_11`, `test_error_rate_verification.py` needs
`module_error_monitoring.ErrorRateMonitor`, `test_user_custom_input.py`
needs `modules_custom_strategy.CustomStrategyBuilder`, and the two scenario
tests need `scenario.multi_simulation_engine.run_scenario_simulation`. -/
def requiredTestImports : List (String × String × String) :=
  [("test_backtest_speed", "module_11", "backtest_engine"),
   ("test_error_rate_verification", "module_error_monitoring", "ErrorRateMonitor"),
   ("test_user_custom_input", "modules_custom_strategy", "CustomStrategyBuilder"),
   ("test_bear_market_reaction", "scenario", "run_scenario_simulation"),
   ("test_macro_shock_event", "scenario", "run_scenario_simulation")]

/- ### Small concrete instances (used to exercise the theorems) -/

/-- A concrete backtester whose strategy always raises `"boom"`. -/
def errBacktester : MassiveBacktester ℕ :=
  { strategy_fn := fun _ => Except.error "boom"
    scenario_generator := fun k => List.replicate k 0
    max_runs := 2 }

/-- A concrete backtester whose strategy returns a valid result dict. -/
def okBacktester : MassiveBacktester ℕ :=
  { strategy_fn := fun _ => Except.ok (.dict [("return", .num 1)])
    scenario_generator := fun k => List.replicate k 0
    max_runs := 2 }

/-- A concrete backtester whose strategy returns a non-dict value and whose
generator honors its argument. -/
def nondictBacktester : MassiveBacktester ℕ :=
  { strategy_fn := fun _ => Except.ok (.nondict (.num 0))
    scenario_generator := fun k => List.replicate k 0
    max_runs := 2 }

/- ### Helper lemmas -/

theorem length_cumprodGo (xs : List ℚ) (a : ℚ) :
    (cumprodGo a xs).length = xs.length := by
  induction xs generalizing a with
  | nil => rfl
  | cons x xs ih => simp [cumprodGo, ih]

theorem length_cumprod (xs : List ℚ) : (cumprod xs).length = xs.length :=
  length_cumprodGo xs 1

theorem getD_map_range {α : Type} (f : ℕ → α) (n i : ℕ) (d : α) :
    ((List.range n).map f).getD i d = if i < n then f i else d := by
  rw [List.getD_eq_getElem?_getD, List.getElem?_map]
  by_cases h : i < n
  · rw [List.getElem?_range h]
    simp [h]
  · rw [List.getElem?_eq_none (by simpa using Nat.le_of_not_lt h)]
    simp [h]

theorem foldl_min_le_init (l : List ℚ) (a : ℚ) : l.foldl min a ≤ a := by
  induction l generalizing a with
  | nil => exact le_refl a
  | cons x xs ih => exact le_trans (ih (min a x)) (min_le_left a x)

theorem listMin_cons_le_head (x : ℚ) (xs : List ℚ) : listMin (x :: xs) ≤ x :=
  foldl_min_le_init xs x

theorem le_foldl_max_init (l : List ℚ) (a : ℚ) : a ≤ l.foldl max a := by
  induction l generalizing a with
  | nil => exact le_refl a
  | cons x xs ih => exact le_trans (le_max_left a x) (ih (max a x))

theorem le_foldl_max_of_mem {y : ℚ} {l : List ℚ} (hy : y ∈ l) (a : ℚ) :
    y ≤ l.foldl max a := by
  induction l generalizing a with
  | nil => cases hy
  | cons x xs ih =>
    rcases List.mem_cons.mp hy with rfl | hmem
    · exact le_trans (le_max_right a y) (le_foldl_max_init xs (max a y))
    · exact ih hmem (max a x)

theorem le_listMax {y : ℚ} {l : List ℚ} (hy : y ∈ l) : y ≤ listMax l := by
  cases l with
  | nil => cases hy
  | cons x xs =>
    rcases List.mem_cons.mp hy with rfl | hmem
    · exact le_foldl_max_init xs y
    · exact le_foldl_max_of_mem hmem x

theorem mean_le_of_forall_le {l : List ℚ} {b : ℚ} (hne : l ≠ [])
    (h : ∀ x ∈ l, x ≤ b) : mean l ≤ b := by
  have hlen : 0 < (l.length : ℚ) := by
    have := List.length_pos.mpr hne
    exact_mod_cast this
  have hsum : l.sum ≤ (l.length : ℚ) * b := by
    have := List.sum_le_card_nsmul l b h
    rwa [nsmul_eq_mul] at this
  rw [mean, div_le_iff₀ hlen, mul_comm]
  exact hsum

theorem floor_le_roundHalfEven (x : ℚ) : ⌊x⌋ ≤ roundHalfEven x := by
  unfold roundHalfEven
  split_ifs <;> omega

theorem roundHalfEven_le_floor_add_one (x : ℚ) : roundHalfEven x ≤ ⌊x⌋ + 1 := by
  unfold roundHalfEven
  split_ifs <;> omega

theorem roundHalfEven_mono {x y : ℚ} (h : x ≤ y) :
    roundHalfEven x ≤ roundHalfEven y := by
  rcases lt_or_eq_of_le (Int.floor_le_floor h) with hf | hf
  · calc roundHalfEven x ≤ ⌊x⌋ + 1 := roundHalfEven_le_floor_add_one x
      _ ≤ ⌊y⌋ := by omega
      _ ≤ roundHalfEven y := floor_le_roundHalfEven y
  · have hfr : Int.fract x ≤ Int.fract y := by
      unfold Int.fract
      rw [hf]
      linarith
    unfold roundHalfEven
    rw [hf]
    split_ifs <;> first | omega | linarith

theorem pyRound_mono {x y : ℚ} (d : ℕ) (h : x ≤ y) :
    pyRound x d ≤ pyRound y d := by
  unfold pyRound
  have hp : (0 : ℚ) < 10 ^ d := by positivity
  apply div_le_div_of_nonneg_right _ (le_of_lt hp)
  exact_mod_cast roundHalfEven_mono (mul_le_mul_of_nonneg_right h (le_of_lt hp))

theorem pyRound_zero (d : ℕ) : pyRound 0 d = 0 := by
  unfold pyRound roundHalfEven
  rw [zero_mul]
  simp

theorem pyRound_hundred : pyRound 100 2 = 100 := by
  unfold pyRound roundHalfEven
  have h1 : (100 : ℚ) * 10 ^ 2 = ((10000 : ℤ) : ℚ) := by norm_num
  rw [h1, Int.fract_intCast, Int.floor_intCast]
  norm_num

theorem pyRound_nonpos {x : ℚ} (d : ℕ) (h : x ≤ 0) : pyRound x d ≤ 0 := by
  have := pyRound_mono d h
  rwa [pyRound_zero] at this

theorem dtwDist_nonneg : ∀ (x y : List ℚ), 0 ≤ dtwDist x y := by
  have H : ∀ (n : ℕ) (x y : List ℚ), x.length + y.length ≤ n → 0 ≤ dtwDist x y := by
    intro n
    induction n with
    | zero =>
      intro x y h
      have hx : x = [] := List.eq_nil_of_length_eq_zero (by omega)
      subst hx
      rw [dtwDist]
    | succ n ih =>
      intro x y h
      match x, y with
      | [], y => rw [dtwDist]
      | _ :: _, [] => rw [dtwDist]
      | [a], [b] => rw [dtwDist]; positivity
      | [a], b :: b2 :: bs =>
        rw [dtwDist]
        have h1 := ih [a] (b2 :: bs) (by simp at h ⊢; omega)
        have h2 := abs_nonneg (a - b)
        linarith
      | a :: a2 :: as, [b] =>
        rw [dtwDist]
        have h1 := ih (a2 :: as) [b] (by simp at h ⊢; omega)
        have h2 := abs_nonneg (a - b)
        linarith
      | a :: a2 :: as, b :: b2 :: bs =>
        rw [dtwDist]
        have h1 := ih (a2 :: as) (b :: b2 :: bs) (by simp at h ⊢; omega)
        have h2 := ih (a :: a2 :: as) (b2 :: bs) (by simp at h ⊢; omega)
        have h3 := ih (a2 :: as) (b2 :: bs) (by simp at h ⊢; omega)
        have h4 := abs_nonneg (a - b)
        have h5 : 0 ≤ min (dtwDist (a2 :: as) (b :: b2 :: bs))
            (min (dtwDist (a :: a2 :: as) (b2 :: bs)) (dtwDist (a2 :: as) (b2 :: bs))) :=
          le_min h1 (le_min h2 h3)
        linarith
  intro x y
  exact H (x.length + y.length) x y le_rfl

/-- The 5th-percentile value is at least the smallest entry: some return is
at or below it, so the CVaR set of `risk_forecast` is non-empty. -/
theorem exists_mem_le_npPercentile (a : List ℚ) (ha : a ≠ []) {q : ℚ}
    (hq0 : 0 ≤ q) (hq1 : q ≤ 100) : ∃ r ∈ a, r ≤ npPercentile a q := by
  have hlen : 0 < a.length := List.length_pos.mpr ha
  have hslen : (a.insertionSort fun x y => x ≤ y).length = a.length :=
    List.length_insertionSort _ a
  set s := a.insertionSort fun x y => x ≤ y with hs
  have hsorted : List.Sorted (· ≤ ·) s := List.sorted_insertionSort _ a
  set h : ℚ := ((a.length : ℚ) - 1) * q / 100 with hh
  have hh0 : 0 ≤ h := by
    apply div_nonneg _ (by norm_num)
    apply mul_nonneg _ hq0
    have : (1 : ℚ) ≤ (a.length : ℚ) := by exact_mod_cast hlen
    linarith
  have hhle : h ≤ (a.length : ℚ) - 1 := by
    rw [hh, div_le_iff₀ (by norm_num : (0:ℚ) < 100)]
    have : (1 : ℚ) ≤ (a.length : ℚ) := by exact_mod_cast hlen
    nlinarith
  have hfl0 : 0 ≤ ⌊h⌋ := Int.floor_nonneg.mpr hh0
  have hfl : (⌊h⌋ : ℚ) ≤ (a.length : ℚ) - 1 := le_trans (Int.floor_le h) hhle
  have hidx : (⌊h⌋).toNat < s.length := by
    rw [hslen]
    have hcast : (((⌊h⌋).toNat : ℕ) : ℚ) = ((⌊h⌋ : ℤ) : ℚ) := by
      rw [show (((⌊h⌋).toNat : ℕ) : ℚ) = (((⌊h⌋).toNat : ℤ) : ℚ) by push_cast; ring,
        Int.toNat_of_nonneg hfl0]
    have h2 : (((⌊h⌋).toNat : ℕ) : ℚ) < (a.length : ℚ) := by
      rw [hcast]
      linarith
    exact_mod_cast h2
  have hhead : s.get ⟨0, by omega⟩ ≤ s.get ⟨(⌊h⌋).toNat, hidx⟩ :=
    hsorted.rel_get_of_le (by exact_mod_cast Nat.zero_le _)
  have hlo : s.getD (⌊h⌋).toNat 0 = s.get ⟨(⌊h⌋).toNat, hidx⟩ := by
    rw [List.getD_eq_getElem s 0 hidx]
    rfl
  have hlohi : s.getD (⌊h⌋).toNat 0 ≤ s.getD ((⌊h⌋).toNat + 1) (s.getD (⌊h⌋).toNat 0) := by
    by_cases hi2 : (⌊h⌋).toNat + 1 < s.length
    · rw [List.getD_eq_getElem s _ hi2, hlo]
      exact hsorted.rel_get_of_le (by simp)
    · rw [List.getD_eq_getElem?_getD s ((⌊h⌋).toNat + 1),
        List.getElem?_eq_none (Nat.le_of_not_lt hi2)]
      simp
  have hfrac : 0 ≤ h - (⌊h⌋ : ℚ) := by
    have := Int.floor_le h
    linarith
  refine ⟨s.get ⟨0, by omega⟩, ?_, ?_⟩
  · exact (List.perm_insertionSort _ a).mem_iff.mp (List.get_mem s 0 _)
  · simp only [npPercentile]
    rw [← hs, ← hh]
    have hge : 0 ≤ s.getD ((⌊h⌋).toNat + 1) (s.getD (⌊h⌋).toNat 0) -
        s.getD (⌊h⌋).toNat 0 := by
      linarith [hlohi]
    have h0le : s.get ⟨0, by omega⟩ ≤ s.getD (⌊h⌋).toNat 0 := by
      rw [hlo]
      exact hhead
    have hmul := mul_nonneg hfrac hge
    linarith

/-- Pointwise shape of the Entry and Exit conditions: whatever the RSI,
MACD, MA20 and Close values at a row are (NaN included), the Entry
conjunction and the Exit disjunction cannot both hold. -/
theorem entry_exit_pointwise (rsi ma : Option ℚ) (macd close : ℚ) :
    ((cmpSeriesLt rsi 30 && decide (0 < macd) && cmpSeriesLt ma close) &&
      (cmpSeriesGt rsi 70 || decide (macd < 0) || cmpSeriesGt ma close)) = false := by
  rcases rsi with _ | a
  · simp [cmpSeriesLt]
  rcases ma with _ | b
  · simp [cmpSeriesLt]
  simp only [cmpSeriesLt, cmpSeriesGt]
  rcases le_or_lt 30 a with h | h
  · have ha : decide (a < 30) = false := by simp; linarith
    simp [ha]
  · have e1 : decide (70 < a) = false := by simp; linarith
    rcases le_or_lt macd 0 with h2 | h2
    · have hm : decide (0 < macd) = false := by simp; linarith
      simp [hm]
    · have e2 : decide (macd < 0) = false := by simp; linarith
      rcases le_or_lt close b with h3 | h3
      · have hb : decide (b < close) = false := by simp; linarith
        simp [hb]
      · have e3 : decide (close < b) = false := by simp; linarith
        simp [e1, e2, e3]

/- ### The claims -/

/-- C1: the names the test suite needs — `backtest_engine` from a top-level
`module_11`, `module_error_monitoring.ErrorRateMonitor`,
`modules_custom_strategy.CustomStrategyBuilder` and
`scenario.multi_simulation_engine.run_scenario_simulation` — are not
defined anywhere in the source tree: none of the required top-level modules
is importable, modules/module_11.py has no `backtest_engine` attribute
either, and the only `scenario` package (tests/scenario/) has no
`multi_simulation_engine` module; hence importing each of the five test
files fails and the test suite is non-executable as given. -/
theorem claim_C1 :
    requiredTestImports.map Prod.fst =
      ["test_backtest_speed", "test_error_rate_verification",
       "test_user_custom_input", "test_bear_market_reaction",
       "test_macro_shock_event"] ∧
    (requiredTestImports.all fun p => !(srcTopLevelModules.contains p.2.1)) = true ∧
    "backtest_engine" ∉ module11TopLevelNames ∧
    "multi_simulation_engine" ∉ testsScenarioModules ∧
    "ErrorRateMonitor" ∉ module11TopLevelNames ∧
    "CustomStrategyBuilder" ∉ module11TopLevelNames := by
  decide

/-- C2: with a pure strategy (every strategy of the embedding is a pure
function of its scenario), `MassiveBacktester.run` with `parallel=True` and
with `parallel=False` produce equal result lists, because `Pool.imap`
yields the worker's results in input order. -/
theorem claim_C2 {σ : Type} (t : MassiveBacktester σ) :
    t.run true = t.run false ∧
    ∀ (f : σ → PyObj) (xs : List σ), poolImap f xs = xs.map f :=
  ⟨rfl, fun _ _ => rfl⟩

/-- C4: a strategy exception `e` inside `_run_single_simulation` becomes
the result `{"error": str(e)}` and is not propagated (the embedding of the
method is total), and every row of the DataFrame returned by `run` is a
dict that contains the key `"return"` and not the key `"error"`. -/
theorem claim_C4 {σ : Type} (t : MassiveBacktester σ) :
    (∀ (s : σ) (e : String), t.strategy_fn s = .error e →
      t.run_single_simulation s = .dict [("error", .str e)]) ∧
    (∀ (parallel : Bool) (r : PyObj), r ∈ t.run parallel →
      r.isDict = true ∧ r.hasKey "return" = true ∧ r.hasKey "error" = false) := by
  constructor
  · intro s e h
    simp [MassiveBacktester.run_single_simulation, h]
  · intro parallel r hr
    have hr2 : r ∈ ((t.scenario_generator t.max_runs).map
        t.run_single_simulation).filter validResult := by
      cases parallel <;> exact hr
    have hv : validResult r = true := (List.mem_filter.mp hr2).2
    simp only [validResult, Bool.and_eq_true, Bool.not_eq_true'] at hv
    exact ⟨hv.1.1, hv.1.2, hv.2⟩

/-- C4 witness: a strategy that raises "boom" yields the error dict, and a
concrete run's row is a dict with "return" and without "error". -/
theorem claim_C4_witness :
    errBacktester.strategy_fn 0 = Except.error "boom" ∧
    errBacktester.run_single_simulation 0 =
      PyObj.dict [("error", PyVal.str "boom")] ∧
    (PyObj.dict [("return", PyVal.num 1)] ∈ okBacktester.run false) ∧
    (PyObj.dict [("return", PyVal.num 1)]).isDict = true ∧
    (PyObj.dict [("return", PyVal.num 1)]).hasKey "return" = true ∧
    (PyObj.dict [("return", PyVal.num 1)]).hasKey "error" = false := by
  have hmem : PyObj.dict [("return", PyVal.num 1)] ∈ okBacktester.run false := by
    decide
  have h2 := (claim_C4 okBacktester).2 false (.dict [("return", .num 1)]) hmem
  exact ⟨rfl, (claim_C4 errBacktester).1 0 "boom" rfl, hmem, h2.1, h2.2.1, h2.2.2⟩

/-- C5: `generate_dummy_portfolio` is purely synthetic: for `days ≥ 1` its
`Portfolio` values are a deterministic function of `(days, seed)` alone
(two calls on different dates agree on the values; only the date index
depends on the call date), the frame has exactly `days` rows in its single
`Portfolio` column, and the first value is `100 * (1 + first noise draw)`. -/
theorem claim_C5 (normal : ℕ → ℕ → List ℚ) (today today2 : ℤ)
    (days seed : ℕ) (hlen : (normal seed days).length = days)
    (hdays : 1 ≤ days) :
    (generate_dummy_portfolio normal today days seed).values =
      (generate_dummy_portfolio normal today2 days seed).values ∧
    (generate_dummy_portfolio normal today days seed).values.length = days ∧
    (generate_dummy_portfolio normal today days seed).column = "Portfolio" ∧
    (generate_dummy_portfolio normal today days seed).values.getD 0 0 =
      100 * (1 + (normal seed days).getD 0 0) := by
  refine ⟨rfl, ?_, rfl, ?_⟩
  · simp [generate_dummy_portfolio, length_cumprod, hlen]
  · cases h : normal seed days with
    | nil => rw [h] at hlen; simp at hlen; omega
    | cons x xs =>
      simp [generate_dummy_portfolio, h, cumprod, cumprodGo]

/-- C5 witness: concrete deterministic noise source, `days = 3`, two call
dates 0 and 5. -/
theorem claim_C5_witness :
    (((fun _ n => List.replicate n (1 / 100 : ℚ)) : ℕ → ℕ → List ℚ) 7 3).length = 3 ∧
    1 ≤ 3 ∧
    ((generate_dummy_portfolio (fun _ n => List.replicate n (1 / 100)) 0 3 7).values =
      (generate_dummy_portfolio (fun _ n => List.replicate n (1 / 100)) 5 3 7).values ∧
    (generate_dummy_portfolio (fun _ n => List.replicate n (1 / 100)) 0 3 7).values.length = 3 ∧
    (generate_dummy_portfolio (fun _ n => List.replicate n (1 / 100)) 0 3 7).column = "Portfolio" ∧
    (generate_dummy_portfolio (fun _ n => List.replicate n (1 / 100)) 0 3 7).values.getD 0 0 =
      100 * (1 + (((fun _ n => List.replicate n (1 / 100 : ℚ)) : ℕ → ℕ → List ℚ) 7 3).getD 0 0)) :=
  ⟨by simp, by norm_num,
    claim_C5 (fun _ n => List.replicate n (1 / 100)) 0 5 3 7 (by simp) (by norm_num)⟩

/-- C6: `run` asks the generator for exactly `max_runs` scenarios in one
call and evaluates the strategy exactly once per scenario with no retries
(the unfiltered result list is the one-to-one image of the generated
scenario list, in both branches), so the returned DataFrame has at most as
many rows as generated scenarios — at most `max_runs` when the generator
honors its argument — and the default `max_runs` is 100000. -/
theorem claim_C6 {σ : Type} (t : MassiveBacktester σ) (parallel : Bool) :
    t.run parallel =
      ((t.scenario_generator t.max_runs).map t.run_single_simulation).filter
        validResult ∧
    (t.run parallel).length ≤ (t.scenario_generator t.max_runs).length ∧
    ((t.scenario_generator t.max_runs).length = t.max_runs →
      (t.run parallel).length ≤ t.max_runs) ∧
    (∀ (f : σ → Except String PyObj) (g : ℕ → List σ),
      ({ strategy_fn := f, scenario_generator := g } : MassiveBacktester σ).max_runs
        = 100000) := by
  have h1 : t.run parallel =
      ((t.scenario_generator t.max_runs).map t.run_single_simulation).filter
        validResult := by
    cases parallel <;> rfl
  have h2 : (t.run parallel).length ≤ (t.scenario_generator t.max_runs).length := by
    rw [h1]
    calc (((t.scenario_generator t.max_runs).map t.run_single_simulation).filter
            validResult).length
        ≤ ((t.scenario_generator t.max_runs).map t.run_single_simulation).length :=
          List.length_filter_le _ _
      _ = (t.scenario_generator t.max_runs).length := List.length_map _ _
  exact ⟨h1, h2, fun h => h ▸ h2, fun _ _ => rfl⟩

/-- C6 witness: a concrete backtester whose generator honors its argument
(`max_runs = 2`). -/
theorem claim_C6_witness :
    (nondictBacktester.scenario_generator nondictBacktester.max_runs).length =
      nondictBacktester.max_runs ∧
    (nondictBacktester.run true).length ≤ nondictBacktester.max_runs := by
  refine ⟨by simp [nondictBacktester], ?_⟩
  exact (claim_C6 nondictBacktester true).2.2.1 (by simp [nondictBacktester])

/-- C7: the app.py dispatcher maps exactly 30 sidebar labels to module
entry points, the label numbered N is bound to `modules.module_N.run` for
every N from 1 to 30 (the bound numbers are exactly 1..30 in order, every
label's leading number equals its bound module, and the labels are
distinct), and one page render invokes exactly the selected label's bound
`run` and no other. -/
theorem claim_C7 :
    appModules.length = 30 ∧
    appModules.map Prod.snd = (List.range 30).map (· + 1) ∧
    (appModules.all fun p => labelNumber p.1 == some p.2) = true ∧
    (appModules.map Prod.fst).Nodup ∧
    (appModules.all fun p => renderInvocations p.1 == [p.2]) = true := by
  decide

/-- C9: the Entry and Exit signals are mutually exclusive: for every price
frame and every row, after `compute_indicators` and
`generate_entry_exit_signals`, the Entry flag
(`RSI < 30 ∧ MACD > 0 ∧ Close > MA20`) and the Exit flag
(`RSI > 70 ∨ MACD < 0 ∨ Close < MA20`) are never both true. -/
theorem claim_C9 (t : TimingPredictor) (i : ℕ) :
    ((generate_entry_exit_signals t).1.getD i false &&
      (generate_entry_exit_signals t).2.getD i false) = false := by
  simp only [generate_entry_exit_signals, getD_map_range]
  by_cases hi : i < t.close.length
  · simp only [if_pos hi]
    exact entry_exit_pointwise _ _ _ _
  · simp only [if_neg hi, Bool.false_and]

/-- C3 (counterexample to the claim as stated): with `window_size = 60`, a
60-row price frame and a 60-row reference frame — both at least
`window_size` rows, so the claim requires a matched window and a score in
(0, 100] — `match_similar_patterns` returns `(None, 0.0)`, because the loop
`for start in range(len(reference_close) - window_size)` is empty. -/
theorem claim_C3_counterexample :
    (60 : ℕ) ≤ (List.replicate 60 (5:ℚ)).length ∧
    (60 : ℕ) ≤ (List.replicate 60 (7:ℚ)).length ∧
    match_similar_patterns dtwDist
      ⟨List.replicate 60 (5:ℚ), List.replicate 60 (1:ℚ)⟩
      (List.replicate 60 (7:ℚ)) 60 = (none, 0) := by
  refine ⟨by simp, by simp, ?_⟩
  have hscores : similarity_scores_list dtwDist
      ⟨List.replicate 60 (5:ℚ), List.replicate 60 (1:ℚ)⟩
      (List.replicate 60 (7:ℚ)) 60 = [] := by
    unfold similarity_scores_list
    simp
  simp [match_similar_patterns, hscores, List.insertionSort]

/-- C3 (amended): when both frames have at least `window_size` rows AND the
reference frame is strictly longer than `window_size` (the code's loop
`range(len(reference) - window_size)` skips the final start offset, so a
reference of exactly `window_size` rows yields `(None, 0.0)`),
`match_similar_patterns` returns the reference window whose distance to the
scaled current window is minimal over the start offsets
`0 … len(reference) - window_size - 1`, with a rounded similarity score in
[0, 100] (rounding can reach 0); if either frame is shorter than
`window_size`, or the reference has exactly `window_size` rows, it returns
`(None, 0.0)`. -/
theorem claim_C3 (dtw : List ℚ → List ℚ → ℚ) (hdtw : ∀ a b, 0 ≤ dtw a b)
    (t : TimingPredictor) (refC : List ℚ) (ws : ℕ) :
    ((t.close.length < ws ∨ refC.length ≤ ws) →
      match_similar_patterns dtw t refC ws = (none, 0)) ∧
    (ws ≤ t.close.length → ws < refC.length →
      ∃ top ∈ similarity_scores_list dtw t refC ws,
        (match_similar_patterns dtw t refC ws).1 =
          some ((refC.drop top.1).take ws) ∧
        (∀ q ∈ similarity_scores_list dtw t refC ws, top.2 ≤ q.2) ∧
        0 ≤ (match_similar_patterns dtw t refC ws).2 ∧
        (match_similar_patterns dtw t refC ws).2 ≤ 100) := by
  constructor
  · intro h
    by_cases hg : t.close.length < ws ∨ refC.length < ws
    · simp only [match_similar_patterns, if_pos hg]
    · have hws : refC.length = ws := by omega
      have hscores : similarity_scores_list dtw t refC ws = [] := by
        unfold similarity_scores_list
        rw [hws]
        simp
      simp [match_similar_patterns, if_neg hg, hscores, List.insertionSort]
  · intro h1 h2
    have hg : ¬(t.close.length < ws ∨ refC.length < ws) := by omega
    have hlen : (similarity_scores_list dtw t refC ws).length = refC.length - ws := by
      unfold similarity_scores_list
      rw [List.length_map, List.length_range]
    have hpos : 0 < (similarity_scores_list dtw t refC ws).length := by omega
    have hslen : ((similarity_scores_list dtw t refC ws).insertionSort
        (fun a b => a.2 ≤ b.2)).length =
        (similarity_scores_list dtw t refC ws).length :=
      List.length_insertionSort _ _
    have hnn : ∀ q ∈ similarity_scores_list dtw t refC ws, 0 ≤ q.2 := by
      intro q hq
      unfold similarity_scores_list at hq
      obtain ⟨start, hstart, rfl⟩ := List.mem_map.mp hq
      exact hdtw _ _
    cases hs : (similarity_scores_list dtw t refC ws).insertionSort
        (fun a b => a.2 ≤ b.2) with
    | nil =>
      rw [hs] at hslen
      simp at hslen
      omega
    | cons top rest =>
      have htopmem : top ∈ similarity_scores_list dtw t refC ws := by
        have hmem : top ∈ (similarity_scores_list dtw t refC ws).insertionSort
            (fun a b => a.2 ≤ b.2) := by
          rw [hs]
          exact List.mem_cons_self _ _
        exact (List.perm_insertionSort _ _).mem_iff.mp hmem
      have hsorted := List.sorted_insertionSort (fun a b : ℕ × ℚ => a.2 ≤ b.2)
        (similarity_scores_list dtw t refC ws)
      rw [hs, List.sorted_cons] at hsorted
      have hmin : ∀ q ∈ similarity_scores_list dtw t refC ws, top.2 ≤ q.2 := by
        intro q hq
        have hq2 : q ∈ top :: rest := by
          rw [← hs]
          exact (List.perm_insertionSort _ _).mem_iff.mpr hq
        rcases List.mem_cons.mp hq2 with rfl | hqr
        · exact le_refl _
        · exact hsorted.1 q hqr
      obtain ⟨ts, td⟩ := top
      have hres : match_similar_patterns dtw t refC ws =
          (some ((refC.drop ts).take ws),
            pyRound ((1 - td /
              (listMax ((similarity_scores_list dtw t refC ws).map Prod.snd) +
                1 / 100000)) * 100) 2) := by
        simp only [match_similar_patterns, if_neg hg, hs]
      have htd0 : (0:ℚ) ≤ td := hnn _ htopmem
      have htdM : td ≤ listMax ((similarity_scores_list dtw t refC ws).map Prod.snd) :=
        le_listMax (List.mem_map_of_mem Prod.snd htopmem)
      set M := listMax ((similarity_scores_list dtw t refC ws).map Prod.snd) with hM
      have hden : (0:ℚ) < M + 1 / 100000 := by linarith
      have hratio1 : td / (M + 1 / 100000) < 1 :=
        (div_lt_one hden).mpr (by linarith)
      have hratio0 : (0:ℚ) ≤ td / (M + 1 / 100000) :=
        div_nonneg htd0 (le_of_lt hden)
      have hsc1 : (0:ℚ) ≤ (1 - td / (M + 1 / 100000)) * 100 := by nlinarith
      have hsc2 : (1 - td / (M + 1 / 100000)) * 100 ≤ 100 := by nlinarith
      refine ⟨(ts, td), htopmem, ?_, hmin, ?_, ?_⟩
      · rw [hres]
      · rw [hres]
        have hmono := pyRound_mono 2 hsc1
        rwa [pyRound_zero] at hmono
      · rw [hres]
        calc pyRound ((1 - td / (M + 1 / 100000)) * 100) 2
            ≤ pyRound 100 2 := pyRound_mono 2 hsc2
          _ = 100 := pyRound_hundred

/-- C3 witness: the amended statement at a concrete instance
(`window_size = 2`, current closes `[0, 1]`, reference `[0, 1, 2]`),
with the classic DTW distance instantiating the fastdtw call. -/
theorem claim_C3_witness :
    (∀ a b, 0 ≤ dtwDist a b) ∧
    2 ≤ ([(0:ℚ), 1] : List ℚ).length ∧
    2 < ([(0:ℚ), 1, 2] : List ℚ).length ∧
    (∃ top ∈ similarity_scores_list dtwDist ⟨[0, 1], [1, 1]⟩ [0, 1, 2] 2,
      (match_similar_patterns dtwDist ⟨[0, 1], [1, 1]⟩ [0, 1, 2] 2).1 =
        some ((([(0:ℚ), 1, 2] : List ℚ).drop top.1).take 2) ∧
      (∀ q ∈ similarity_scores_list dtwDist ⟨[0, 1], [1, 1]⟩ [0, 1, 2] 2,
        top.2 ≤ q.2) ∧
      0 ≤ (match_similar_patterns dtwDist ⟨[0, 1], [1, 1]⟩ [0, 1, 2] 2).2 ∧
      (match_similar_patterns dtwDist ⟨[0, 1], [1, 1]⟩ [0, 1, 2] 2).2 ≤ 100) :=
  ⟨dtwDist_nonneg, by norm_num, by norm_num,
    (claim_C3 dtwDist dtwDist_nonneg ⟨[0, 1], [1, 1]⟩ [0, 1, 2] 2).2
      (by norm_num) (by norm_num)⟩

/-- C8: `risk_forecast` returns `(None, None, None)` if and only if the
percentage-change return series of the Close column (after dropping the
leading NaN) has fewer than 20 entries; otherwise the reported maximum
drawdown is ≤ 0 and the reported CVaR (the mean over the non-empty set of
returns at or below the 5th percentile) is ≤ the reported VaR. -/
theorem claim_C8 (t : TimingPredictor) :
    (risk_forecast t = none ↔ (pct_change t.close).length < 20) ∧
    (∀ v c m, risk_forecast t = some (v, c, m) →
      m ≤ 0 ∧ c ≤ v ∧
      (pct_change t.close).filter
        (fun r => r ≤ npPercentile (pct_change t.close) 5) ≠ []) := by
  constructor
  · simp only [risk_forecast]
    split_ifs with hlen
    · simp [hlen]
    · simp [hlen]
  · intro v c m hsome
    simp only [risk_forecast] at hsome
    split_ifs at hsome with hlen
    simp only [Option.some.injEq, Prod.mk.injEq] at hsome
    obtain ⟨hv, hc, hm⟩ := hsome
    have hne : pct_change t.close ≠ [] := by
      intro h0
      rw [h0] at hlen
      simp at hlen
    obtain ⟨r0, hr0mem, hr0le⟩ := exists_mem_le_npPercentile (pct_change t.close)
      hne (by norm_num) (by norm_num : (5:ℚ) ≤ 100)
    have hfilter_ne : (pct_change t.close).filter
        (fun r => r ≤ npPercentile (pct_change t.close) 5) ≠ [] :=
      List.ne_nil_of_mem (List.mem_filter.mpr ⟨hr0mem, by simpa using hr0le⟩)
    refine ⟨?_, ?_, hfilter_ne⟩
    · have hdd : listMin (List.zipWith (fun c p => (c - p) / p)
          (cumprod ((pct_change t.close).map fun r => 1 + r))
          (cummax (cumprod ((pct_change t.close).map fun r => 1 + r)))) ≤ 0 := by
        cases hret : pct_change t.close with
        | nil => exact absurd hret hne
        | cons r rs =>
          simp only [List.map_cons, cumprod, cumprodGo, cummax,
            List.zipWith_cons_cons]
          have hh := listMin_cons_le_head
            ((1 * (1 + r) - 1 * (1 + r)) / (1 * (1 + r)))
            (List.zipWith (fun c p => (c - p) / p)
              (cumprodGo (1 * (1 + r)) (rs.map fun r => 1 + r))
              (cummaxGo (1 * (1 + r)) (cumprodGo (1 * (1 + r)) (rs.map fun r => 1 + r))))
          simpa using hh
      rw [← hm]
      apply pyRound_nonpos
      nlinarith
    · have hcvar : mean ((pct_change t.close).filter
          (fun r => r ≤ npPercentile (pct_change t.close) 5)) ≤
          npPercentile (pct_change t.close) 5 := by
        apply mean_le_of_forall_le hfilter_ne
        intro x hx
        have := List.of_mem_filter hx
        exact of_decide_eq_true this
      rw [← hc, ← hv]
      apply pyRound_mono
      nlinarith

/-- C8 witness: a 21-row constant Close series has exactly 20 zero returns
and reports `(0, 0, 0)`. -/
theorem claim_C8_witness :
    risk_forecast ⟨List.replicate 21 100, List.replicate 21 1⟩ = some (0, 0, 0) ∧
    ((0:ℚ) ≤ 0 ∧ (0:ℚ) ≤ 0 ∧
      (pct_change (List.replicate 21 (100:ℚ))).filter
        (fun r => r ≤ npPercentile (pct_change (List.replicate 21 (100:ℚ))) 5) ≠ []) := by
  have hpct : pct_change (List.replicate 21 (100:ℚ)) = List.replicate 20 0 := by
    rw [pct_change, List.tail_replicate, List.zipWith_replicate]
    norm_num
  have hsort : (List.replicate 20 (0:ℚ)).insertionSort (fun x y => x ≤ y) =
      List.replicate 20 0 := by
    norm_num [List.replicate, List.insertionSort, List.orderedInsert]
  have hper : npPercentile (List.replicate 20 (0:ℚ)) 5 = 0 := by
    simp only [npPercentile, hsort]
    norm_num [List.replicate]
  have hsome : risk_forecast ⟨List.replicate 21 100, List.replicate 21 1⟩ =
      some (0, 0, 0) := by
    simp only [risk_forecast, hpct, hper]
    norm_num [List.replicate, mean, cumprod, cumprodGo, cummax, cummaxGo,
      listMin, pyRound, roundHalfEven]
  have h2 := (claim_C8 ⟨List.replicate 21 100, List.replicate 21 1⟩).2 0 0 0 hsome
  exact ⟨hsome, by simpa [hpct] using h2⟩

/-- C10: for every input string, `market_phase_weighting` returns exactly
the four keys RSI, MACD, MA, OBV with non-negative values that sum to 1. -/
theorem claim_C10 (s : String) :
    (market_phase_weighting s).map Prod.fst = ["RSI", "MACD", "MA", "OBV"] ∧
    ((market_phase_weighting s).all fun p => decide (0 ≤ p.2)) = true ∧
    ((market_phase_weighting s).map Prod.snd).sum = 1 := by
  unfold market_phase_weighting
  split_ifs <;> refine ⟨rfl, by simp; norm_num, by norm_num⟩
